import Mathlib

/-!
# Verification of the footwear RAG retrieval/aggregation core

Shallow embedding of the retrieval core of the repository:
`RAG/database.py` (`SnowflakeVectorDB.get_top3_with_embeddings`,
`SnowflakeVectorDB.insert_batch`, `average_embeddings`) and
`RAG/rag_query.py` (`RAGQueryService.query`,
`RAGQueryService.query_with_embedding`, `RAGQueryService._format_as_cases`).

Floating-point values are modelled as rationals (`ℚ`).  The Snowflake SQL
engine is external to the repository; the parts of its behaviour that the
code relies on (`ORDER BY similarity DESC LIMIT 3` over rows with a
non-null stored vector, with `VECTOR_COSINE_SIMILARITY` possibly null)
are modelled from the specification, parametrised by an abstract
similarity function `sim : List ℚ → List ℚ → Option ℚ` (`none` models a
SQL `NULL` similarity, e.g. for a zero-norm stored vector).
-/

namespace RAGSpec

/-- Metadata dictionaries are opaque pass-through values for this core;
modelled as key/value pairs. -/
abbrev Metadata := List (String × String)

/-- `SearchResult` dataclass (`database.py`, lines 20-25). -/
structure SearchResult where
  id : String
  metadata : Metadata
  similarity_score : ℚ
deriving DecidableEq

/-- A stored row of the `FOOTPRINT_VECTORS` table: `id`, `metadata`,
`image_embedding` (nullable vector column). -/
structure StoredRecord where
  id : String
  metadata : Metadata
  embedding : Option (List ℚ)
deriving DecidableEq

/-- A row fetched by the top-3 SQL query of `get_top3_with_embeddings`
(`database.py`, lines 296-309): `id`, `metadata`, `image_embedding`,
and the (possibly NULL) cosine similarity. -/
structure Row where
  id : String
  metadata : Metadata
  embedding : List ℚ
  similarity : Option ℚ
deriving DecidableEq

/-- Descending order on nullable similarity scores with NULLs last:
`a` may come before `b` iff `a`'s score is at least `b`'s, a missing
score counting as smallest. -/
def descLE : Option ℚ → Option ℚ → Bool
  | none, none => true
  | none, some _ => false
  | some _, none => true
  | some x, some y => decide (y ≤ x)

/-- Row ordering used by `ORDER BY similarity DESC`. -/
def rowLE (a b : Row) : Prop := descLE a.similarity b.similarity = true

instance : DecidableRel rowLE := fun a b =>
  inferInstanceAs (Decidable (_ = true))

instance : IsTotal Row rowLE := by
  constructor
  intro a b
  unfold rowLE descLE
  rcases a.similarity with _ | x <;> rcases b.similarity with _ | y <;> simp
  exact le_total y x

instance : IsTrans Row rowLE := by
  constructor
  intro a b c
  unfold rowLE descLE
  rcases a.similarity with _ | x <;> rcases b.similarity with _ | y <;>
    rcases c.similarity with _ | z <;> simp
  intro h1 h2
  exact h2.trans h1

/-- Defensive cleaning of the query embedding (`database.py`, line 293):
`[float(v) if v is not None else 0.0 for v in query_embedding]`. -/
def cleanEmbedding (q : List (Option ℚ)) : List ℚ :=
  q.map (fun v => v.getD 0)

/-- Modelled from the spec: the rows produced by the SQL `SELECT` of
`get_top3_with_embeddings` before ordering — every stored record whose
`image_embedding IS NOT NULL`, paired with its (possibly NULL) cosine
similarity to the cleaned query embedding.  The similarity computation
itself happens inside Snowflake and is the abstract parameter `sim`. -/
def recordRows (sim : List ℚ → List ℚ → Option ℚ) (table : List StoredRecord)
    (clean : List ℚ) : List Row :=
  table.filterMap fun r =>
    r.embedding.map fun e => ⟨r.id, r.metadata, e, sim e clean⟩

/-- Modelled from the spec: `ORDER BY similarity DESC LIMIT 3`
(`database.py`, lines 296-309).  The engine sorts the candidate rows by
similarity descending (NULL similarities last, ties broken by a stable
sort — the spec leaves tie order open) and returns at most 3 rows. -/
def sqlTop3 (sim : List ℚ → List ℚ → Option ℚ) (table : List StoredRecord)
    (clean : List ℚ) : List Row :=
  (List.insertionSort rowLE (recordRows sim table clean)).take 3

/-- The body of the fetch loop of `get_top3_with_embeddings`
(`database.py`, lines 317-329): a row with NULL similarity is skipped
(`continue`), otherwise it becomes a `SearchResult`. -/
def rowToResult (row : Row) : Option SearchResult :=
  row.similarity.map fun s => ⟨row.id, row.metadata, s⟩

/-- `SnowflakeVectorDB.get_top3_with_embeddings` (`database.py`,
lines 274-339): clean the query embedding, fetch the top-3 rows, skip
rows with NULL similarity, and collect the surviving rows' search
results and stored embeddings. -/
def get_top3_with_embeddings (sim : List ℚ → List ℚ → Option ℚ)
    (table : List StoredRecord) (query_embedding : List (Option ℚ)) :
    List SearchResult × List (List ℚ) :=
  let rows := sqlTop3 sim table (cleanEmbedding query_embedding)
  (rows.filterMap rowToResult,
   (rows.filter fun r => r.similarity.isSome).map fun r => r.embedding)

/-- `average_embeddings` (`database.py`, lines 365-382).  An empty input
raises `ValueError("Cannot average empty list of embeddings")`; a ragged
(non-uniform-dimension) input makes `np.array` raise, modelled by the
second error branch; otherwise the element-wise arithmetic mean is
returned.  Errors are modelled with `Except`. -/
def average_embeddings (embeddings : List (List ℚ)) : Except String (List ℚ) :=
  match embeddings with
  | [] => Except.error "Cannot average empty list of embeddings"
  | e :: rest =>
    if rest.all (fun x => x.length == e.length) then
      Except.ok
        (((rest.foldl (fun acc x => List.zipWith (· + ·) acc x) e)).map
          (fun v => v / ((e :: rest).length : ℚ)))
    else
      Except.error "setting an array element with a sequence"

/-- Python's `round` on floats: round half to even (banker's rounding),
modelled on `ℚ`. -/
def pyRound (q : ℚ) : ℤ :=
  if q - ⌊q⌋ < 1/2 then ⌊q⌋
  else if 1/2 < q - ⌊q⌋ then ⌊q⌋ + 1
  else if ⌊q⌋ % 2 = 0 then ⌊q⌋ else ⌊q⌋ + 1

/-- Python's `round(q, n)`: round to `n` decimal places, half to even. -/
def pyRoundTo (q : ℚ) (n : ℕ) : ℚ :=
  (pyRound (q * 10 ^ n) : ℚ) / 10 ^ n

/-- `MetadataCase` dataclass (`rag_query.py`, lines 17-23). -/
structure MetadataCase where
  case_label : String
  id : String
  metadata : Metadata
  similarity_score : ℚ
deriving DecidableEq

/-- The `query_metadata` dictionary built by query responses
(`rag_query.py`, lines 113-118 and 135-140). -/
structure QueryMetadata where
  timestamp : String
  embedding_model : String
  results_found : ℕ
  processing_time_ms : ℚ
deriving DecidableEq

/-- `RAGQueryResult` dataclass (`rag_query.py`, lines 35-39). -/
structure RAGQueryResult where
  cases : List MetadataCase
  query_metadata : QueryMetadata
deriving DecidableEq

/-- `RAGQueryService.CASE_LABELS` (`rag_query.py`, line 64). -/
def CASE_LABELS : List String := ["CASE A", "CASE B", "CASE C"]

/-- `RAGQueryService._format_as_cases` (`rag_query.py`, lines 143-164):
`for i, result in enumerate(search_results[:3])` pairs the `i`-th of the
first three results with `CASE_LABELS[i]`, rounding the similarity score
to 4 decimal places. -/
def formatAsCases (search_results : List SearchResult) : List MetadataCase :=
  List.zipWith
    (fun label r => ⟨label, r.id, r.metadata, pyRoundTo r.similarity_score 4⟩)
    CASE_LABELS (search_results.take 3)

/-- Steps 3-4 of `RAGQueryService.query` (`rag_query.py`, lines 121-141):
average the returned embeddings when there are any (the guard
`if result_embeddings:`), format the cases, and build the result.  The
(unused) `target_embedding` is returned alongside so the guard's effect
is visible; an exception from `average_embeddings` propagates. -/
def finishQuery (search_results : List SearchResult)
    (result_embeddings : List (List ℚ)) (use_snowflake : Bool)
    (timestamp : String) (elapsed_ms : ℚ) :
    Except String (Option (List ℚ) × RAGQueryResult) :=
  let targetE : Except String (Option (List ℚ)) :=
    if result_embeddings.isEmpty then Except.ok none
    else (average_embeddings result_embeddings).map some
  targetE.map fun target =>
    let cases := formatAsCases search_results
    (target,
     ⟨cases,
      ⟨timestamp, if use_snowflake then "snowflake_native" else "local",
       cases.length, pyRoundTo elapsed_ms 2⟩⟩)

/-- `RAGQueryService.query` (`rag_query.py`, lines 81-141), modelled from
the generated query embedding onward (the embedding service is an
external collaborator).  `timestamp` and `elapsed_ms` stand for the
wall-clock readings.  Note the zero-result branch (lines 109-119) stores
the elapsed time unrounded. -/
def query (sim : List ℚ → List ℚ → Option ℚ) (table : List StoredRecord)
    (query_embedding : List (Option ℚ)) (use_snowflake : Bool)
    (timestamp : String) (elapsed_ms : ℚ) : Except String RAGQueryResult :=
  let res := get_top3_with_embeddings sim table query_embedding
  if res.1.isEmpty then
    Except.ok
      ⟨[],
       ⟨timestamp, if use_snowflake then "snowflake_native" else "local",
        0, elapsed_ms⟩⟩
  else
    (finishQuery res.1 res.2 use_snowflake timestamp elapsed_ms).map
      (fun p => p.2)

/-- `RAGQueryService.query_with_embedding` (`rag_query.py`,
lines 166-208).  No averaging happens on this path; the zero-result
branch (lines 184-193) stores the elapsed time unrounded, the other
branch rounds it to 2 decimal places (line 206). -/
def query_with_embedding (sim : List ℚ → List ℚ → Option ℚ)
    (table : List StoredRecord) (query_embedding : List (Option ℚ))
    (timestamp : String) (elapsed_ms : ℚ) : RAGQueryResult :=
  let res := get_top3_with_embeddings sim table query_embedding
  if res.1.isEmpty then
    ⟨[], ⟨timestamp, "pre-computed", 0, elapsed_ms⟩⟩
  else
    let cases := formatAsCases res.1
    ⟨cases, ⟨timestamp, "pre-computed", cases.length, pyRoundTo elapsed_ms 2⟩⟩

/-- A record as given to `insert_batch`: `id`, `image_path`, `metadata`,
`embedding` (`database.py`, line 184). -/
structure InsertRecord where
  id : String
  image_path : String
  metadata : Metadata
  embedding : List ℚ
deriving DecidableEq

/-- The chunking loop `for i in range(0, len(records), batch_size):
batch = records[i:i + batch_size]` (`database.py`, lines 194-195),
written with explicit fuel (`fuel ≥ records.length` at the call site). -/
def chunkGo (bs : ℕ) : ℕ → List α → List (List α)
  | _, [] => []
  | 0, _ :: _ => []
  | fuel + 1, x :: xs => (x :: xs).take bs :: chunkGo bs fuel ((x :: xs).drop bs)

/-- The sequence of batches processed by `insert_batch`. -/
def chunkList (records : List α) (bs : ℕ) : List (List α) :=
  chunkGo bs records.length records

/-- `SnowflakeVectorDB.insert_batch` (`database.py`, lines 175-223).
Whether inserting a given record succeeds is decided by the external
database, modelled by the oracle `ok`; a failing record is caught and
logged (lines 217-218) and processing continues.  A `batch_size` of `0`
makes Python's `range` raise `ValueError`. -/
def insert_batch (ok : InsertRecord → Bool) (records : List InsertRecord)
    (batch_size : ℕ) : Except String ℕ :=
  if batch_size = 0 then
    Except.error "range() arg 3 must not be zero"
  else
    Except.ok
      ((chunkList records batch_size).foldl
        (fun acc chunk => acc + chunk.countP ok) 0)

/-- A concrete similarity used only to instantiate theorems on concrete
inputs: the dot product, undefined on a zero-norm argument (like cosine
similarity, and inducing the same `none`/`some` pattern). -/
def dotQ (a b : List ℚ) : ℚ := (List.zipWith (· * ·) a b).sum

/-- Concrete stand-in for `VECTOR_COSINE_SIMILARITY`: `none` iff either
vector has zero norm. -/
def simDot (a b : List ℚ) : Option ℚ :=
  if dotQ a a = 0 ∨ dotQ b b = 0 then none else some (dotQ a b)

/-! ## Helper lemmas -/

lemma floor_le_pyRound (q : ℚ) : ⌊q⌋ ≤ pyRound q := by
  unfold pyRound
  split_ifs <;> omega

lemma pyRound_le_floor_add_one (q : ℚ) : pyRound q ≤ ⌊q⌋ + 1 := by
  unfold pyRound
  split_ifs <;> omega

lemma pyRound_mono {x y : ℚ} (h : x ≤ y) : pyRound x ≤ pyRound y := by
  rcases lt_or_eq_of_le (Int.floor_mono h) with hf | hf
  · calc pyRound x ≤ ⌊x⌋ + 1 := pyRound_le_floor_add_one x
      _ ≤ ⌊y⌋ := by omega
      _ ≤ pyRound y := floor_le_pyRound y
  · unfold pyRound
    rw [hf]
    have hxy : x - (⌊y⌋ : ℚ) ≤ y - (⌊y⌋ : ℚ) := by linarith
    split_ifs <;> first | omega | linarith

lemma pyRoundTo_mono {x y : ℚ} (n : ℕ) (h : x ≤ y) :
    pyRoundTo x n ≤ pyRoundTo y n := by
  unfold pyRoundTo
  have hpow : (0 : ℚ) < 10 ^ n := by positivity
  have h1 : x * 10 ^ n ≤ y * 10 ^ n :=
    mul_le_mul_of_nonneg_right h (le_of_lt hpow)
  have h2 : ((pyRound (x * 10 ^ n) : ℤ) : ℚ) ≤ ((pyRound (y * 10 ^ n) : ℤ) : ℚ) := by
    exact_mod_cast pyRound_mono h1
  gcongr

lemma formatAsCases_map_score (rs : List SearchResult) :
    (formatAsCases rs).map (fun c => c.similarity_score) =
      (rs.take 3).map (fun r => pyRoundTo r.similarity_score 4) := by
  obtain _ | ⟨a, _ | ⟨b, _ | ⟨c, t⟩⟩⟩ := rs <;>
    simp [formatAsCases, CASE_LABELS, List.take]

lemma formatAsCases_length (rs : List SearchResult) :
    (formatAsCases rs).length = min rs.length 3 := by
  obtain _ | ⟨a, _ | ⟨b, _ | ⟨c, t⟩⟩⟩ := rs <;>
    simp [formatAsCases, CASE_LABELS, List.take]

lemma formatAsCases_map_label (rs : List SearchResult) :
    (formatAsCases rs).map (fun c => c.case_label) =
      CASE_LABELS.take rs.length := by
  obtain _ | ⟨a, _ | ⟨b, _ | ⟨c, t⟩⟩⟩ := rs <;>
    simp [formatAsCases, CASE_LABELS, List.take]

lemma formatAsCases_map_id (rs : List SearchResult) :
    (formatAsCases rs).map (fun c => c.id) = (rs.take 3).map (fun r => r.id) := by
  obtain _ | ⟨a, _ | ⟨b, _ | ⟨c, t⟩⟩⟩ := rs <;>
    simp [formatAsCases, CASE_LABELS, List.take]

lemma formatAsCases_ne_nil {rs : List SearchResult} (h : rs ≠ []) :
    formatAsCases rs ≠ [] := by
  obtain _ | ⟨a, t⟩ := rs
  · exact absurd rfl h
  · simp [formatAsCases, CASE_LABELS, List.take]

lemma sqlTop3_sorted (sim : List ℚ → List ℚ → Option ℚ)
    (table : List StoredRecord) (clean : List ℚ) :
    (sqlTop3 sim table clean).Pairwise rowLE :=
  List.Pairwise.sublist (List.take_sublist _ _)
    (List.sorted_insertionSort rowLE _)

lemma mem_sqlTop3 {sim : List ℚ → List ℚ → Option ℚ}
    {table : List StoredRecord} {clean : List ℚ} {row : Row}
    (h : row ∈ sqlTop3 sim table clean) :
    ∃ r ∈ table, r.embedding = some row.embedding ∧ row.id = r.id ∧
      row.metadata = r.metadata ∧ row.similarity = sim row.embedding clean := by
  have h1 : row ∈ List.insertionSort rowLE (recordRows sim table clean) :=
    (List.take_sublist _ _).mem h
  have h2 : row ∈ recordRows sim table clean :=
    (List.perm_insertionSort rowLE _).mem_iff.mp h1
  obtain ⟨r, hr, he⟩ := List.mem_filterMap.mp h2
  obtain ⟨e, hemb, hrow⟩ := Option.map_eq_some'.mp he
  refine ⟨r, hr, ?_, ?_, ?_, ?_⟩ <;> simp [← hrow, hemb]

lemma results_pairwise {l : List Row} (h : l.Pairwise rowLE) :
    (l.filterMap rowToResult).Pairwise
      (fun a b => b.similarity_score ≤ a.similarity_score) := by
  rw [List.pairwise_filterMap]
  refine h.imp ?_
  intro a b hab sa hsa sb hsb
  unfold rowToResult at hsa hsb
  obtain ⟨x, hx, hxa⟩ := Option.map_eq_some'.mp hsa
  obtain ⟨y, hy, hyb⟩ := Option.map_eq_some'.mp hsb
  unfold rowLE descLE at hab
  rw [hx, hy] at hab
  simp only [decide_eq_true_eq] at hab
  rw [← hxa, ← hyb]
  simpa using hab

lemma sorted_split {l : List Row} (h : l.Pairwise rowLE) :
    ∃ l1 l2, l = l1 ++ l2 ∧ (∀ r ∈ l1, r.similarity.isSome = true) ∧
      ∀ r ∈ l2, r.similarity = none := by
  induction l with
  | nil => exact ⟨[], [], rfl, by simp, by simp⟩
  | cons a t ih =>
    obtain ⟨hhead, htail⟩ := List.pairwise_cons.mp h
    cases hsa : a.similarity with
    | some s =>
      obtain ⟨l1, l2, heq, h1, h2⟩ := ih htail
      refine ⟨a :: l1, l2, by simp [heq], ?_, h2⟩
      intro r hr
      rcases List.mem_cons.mp hr with rfl | hr
      · simp [hsa]
      · exact h1 r hr
    | none =>
      refine ⟨[], a :: t, rfl, by simp, ?_⟩
      intro r hr
      rcases List.mem_cons.mp hr with rfl | hr
      · exact hsa
      · have hle := hhead r hr
        unfold rowLE descLE at hle
        rw [hsa] at hle
        cases hsr : r.similarity with
        | none => rfl
        | some s => rw [hsr] at hle; simp at hle

lemma countP_take_of_split (l1 l2 : List Row) (n : ℕ)
    (h1 : ∀ r ∈ l1, r.similarity.isSome = true)
    (h2 : ∀ r ∈ l2, r.similarity = none) :
    ((l1 ++ l2).take n).countP (fun row => row.similarity.isSome) =
      min n l1.length := by
  rw [List.take_append_eq_append_take, List.countP_append]
  have ha : (l1.take n).countP (fun row => row.similarity.isSome) =
      (l1.take n).length := by
    rw [List.countP_eq_length]
    intro r hr
    exact h1 r ((List.take_sublist _ _).mem hr)
  have hb : (l2.take (n - l1.length)).countP
      (fun row => row.similarity.isSome) = 0 := by
    rw [List.countP_eq_zero]
    intro r hr
    rw [h2 r ((List.take_sublist _ _).mem hr)]
    simp
  rw [ha, hb, List.length_take]
  omega

lemma get_top3_fst_length (sim : List ℚ → List ℚ → Option ℚ)
    (table : List StoredRecord) (q : List (Option ℚ)) :
    (get_top3_with_embeddings sim table q).1.length =
      min ((recordRows sim table (cleanEmbedding q)).countP
            (fun row => row.similarity.isSome)) 3 := by
  obtain ⟨l1, l2, heq, h1, h2⟩ :=
    sorted_split (List.sorted_insertionSort rowLE
      (recordRows sim table (cleanEmbedding q)))
  have hperm : (recordRows sim table (cleanEmbedding q)).countP
      (fun row => row.similarity.isSome) =
      (l1 ++ l2).countP (fun row => row.similarity.isSome) :=
    ((List.perm_insertionSort rowLE _).symm.trans (heq ▸ List.Perm.refl _)).countP_eq _
  have hcount : (l1 ++ l2).countP (fun row => row.similarity.isSome) =
      l1.length := by
    rw [List.countP_append]
    have ha : l1.countP (fun row => row.similarity.isSome) = l1.length :=
      List.countP_eq_length.mpr (by intro r hr; exact h1 r hr)
    have hb : l2.countP (fun row => row.similarity.isSome) = 0 :=
      List.countP_eq_zero.mpr (by intro r hr; rw [h2 r hr]; simp)
    rw [ha, hb]
    omega
  have hres : (get_top3_with_embeddings sim table q).1 =
      (((l1 ++ l2).take 3).filterMap rowToResult) := by
    simp only [get_top3_with_embeddings, sqlTop3, heq]
  rw [hres, List.length_filterMap_eq_countP]
  have hsame : (((l1 ++ l2).take 3).countP fun row => (rowToResult row).isSome) =
      (((l1 ++ l2).take 3).countP fun row => row.similarity.isSome) := by
    apply List.countP_congr
    intro r _
    unfold rowToResult
    cases r.similarity <;> simp
  rw [hsame, countP_take_of_split l1 l2 3 h1 h2, hperm, hcount]
  omega

lemma zipWith_add_getD (a b : List ℚ) (j : ℕ) (hab : b.length = a.length)
    (hj : j < a.length) :
    (List.zipWith (· + ·) a b).getD j 0 = a.getD j 0 + b.getD j 0 := by
  induction a generalizing b j with
  | nil => simp at hj
  | cons x xs ih =>
    cases b with
    | nil => simp at hab
    | cons y ys =>
      cases j with
      | zero => simp [List.getD]
      | succ k =>
        simp only [List.zipWith_cons_cons, List.getD_cons_succ]
        exact ih ys k (by simpa using hab) (by simpa using hj)

lemma getD_map_div (l : List ℚ) (c : ℚ) (j : ℕ) (hj : j < l.length) :
    (l.map (fun v => v / c)).getD j 0 = l.getD j 0 / c := by
  induction l generalizing j with
  | nil => simp at hj
  | cons x xs ih =>
    cases j with
    | zero => simp [List.getD]
    | succ k =>
      simp only [List.map_cons, List.getD_cons_succ]
      exact ih k (by simpa using hj)

lemma foldl_zipWith_add (l : List (List ℚ)) (acc : List ℚ)
    (h : ∀ x ∈ l, x.length = acc.length) :
    (l.foldl (fun a x => List.zipWith (· + ·) a x) acc).length = acc.length ∧
    ∀ j, j < acc.length →
      (l.foldl (fun a x => List.zipWith (· + ·) a x) acc).getD j 0 =
        acc.getD j 0 + (l.map (fun e => e.getD j 0)).sum := by
  induction l generalizing acc with
  | nil => exact ⟨rfl, by simp⟩
  | cons x xs ih =>
    have hx : x.length = acc.length := h x (List.mem_cons_self x xs)
    have hlen : (List.zipWith (· + ·) acc x).length = acc.length := by
      rw [List.length_zipWith]
      omega
    have h' : ∀ y ∈ xs, y.length = (List.zipWith (· + ·) acc x).length := by
      intro y hy
      rw [hlen]
      exact h y (List.mem_cons_of_mem x hy)
    obtain ⟨ihl, ihg⟩ := ih (List.zipWith (· + ·) acc x) h'
    constructor
    · simp only [List.foldl_cons]
      rw [ihl, hlen]
    · intro j hj
      simp only [List.foldl_cons, List.map_cons, List.sum_cons]
      rw [ihg j (by omega), zipWith_add_getD acc x j hx hj]
      ring

lemma average_embeddings_ok (es : List (List ℚ)) (d : ℕ) (hne : es ≠ [])
    (hd : ∀ e ∈ es, e.length = d) :
    ∃ v, average_embeddings es = Except.ok v ∧ v.length = d ∧
      ∀ j, j < d → v.getD j 0 =
        (es.map (fun e => e.getD j 0)).sum / (es.length : ℚ) := by
  obtain _ | ⟨e, rest⟩ := es
  · exact absurd rfl hne
  · have he : e.length = d := hd e (List.mem_cons_self e rest)
    have hguard : rest.all (fun x => x.length == e.length) = true := by
      rw [List.all_eq_true]
      intro x hx
      have := hd x (List.mem_cons_of_mem e hx)
      simp [this, he]
    have hrestlen : ∀ x ∈ rest, x.length = e.length := by
      intro x hx
      rw [hd x (List.mem_cons_of_mem e hx), he]
    obtain ⟨hsl, hsg⟩ := foldl_zipWith_add rest e hrestlen
    refine ⟨(rest.foldl (fun a x => List.zipWith (· + ·) a x) e).map
      (fun v => v / (((e :: rest).length : ℕ) : ℚ)), ?_, ?_, ?_⟩
    · simp only [average_embeddings, hguard, if_true]
    · rw [List.length_map, hsl, he]
    · intro j hj
      have hj' : j < e.length := by omega
      rw [getD_map_div _ _ j (by rw [hsl]; omega), hsg j hj']
      simp only [List.map_cons, List.sum_cons, List.length_cons]

lemma mem_snd_get_top3 {sim : List ℚ → List ℚ → Option ℚ}
    {table : List StoredRecord} {q : List (Option ℚ)} {emb : List ℚ}
    (h : emb ∈ (get_top3_with_embeddings sim table q).2) :
    ∃ r ∈ table, r.embedding = some emb := by
  simp only [get_top3_with_embeddings] at h
  obtain ⟨row, hrow, hemb⟩ := List.mem_map.mp h
  have hrow' : row ∈ sqlTop3 sim table (cleanEmbedding q) :=
    (List.filter_sublist _).mem hrow
  obtain ⟨r, hr, he, _, _, _⟩ := mem_sqlTop3 hrow'
  exact ⟨r, hr, hemb ▸ he⟩

lemma finishQuery_ok_shape {srs : List SearchResult} {embs : List (List ℚ)}
    {flag : Bool} {ts : String} {el : ℚ}
    {p : Option (List ℚ) × RAGQueryResult}
    (h : finishQuery srs embs flag ts el = Except.ok p) :
    p.2 = ⟨formatAsCases srs,
      ⟨ts, if flag then "snowflake_native" else "local",
       (formatAsCases srs).length, pyRoundTo el 2⟩⟩ := by
  unfold finishQuery at h
  set tE := (if embs.isEmpty then Except.ok none
    else (average_embeddings embs).map some : Except String (Option (List ℚ)))
    with htE
  cases htE2 : tE with
  | error msg => rw [htE2] at h; simp [Except.map] at h
  | ok t =>
    rw [htE2] at h
    simp only [Except.map] at h
    have := Except.ok.inj h
    rw [← this]

lemma query_ok (sim : List ℚ → List ℚ → Option ℚ) (table : List StoredRecord)
    (q : List (Option ℚ)) (flag : Bool) (ts : String) (el : ℚ) (d : ℕ)
    (hdim : ∀ r ∈ table, ∀ e ∈ r.embedding, e.length = d) :
    ∃ res, query sim table q flag ts el = Except.ok res := by
  unfold query
  cases hem : (get_top3_with_embeddings sim table q).1.isEmpty with
  | true => simp [hem]
  | false =>
    simp only [hem, Bool.false_eq_true, if_false]
    have hembs : ∀ e ∈ (get_top3_with_embeddings sim table q).2, e.length = d := by
      intro e he
      obtain ⟨r, hr, hre⟩ := mem_snd_get_top3 he
      exact hdim r hr e (by rw [hre]; exact rfl)
    unfold finishQuery
    cases hes : (get_top3_with_embeddings sim table q).2 with
    | nil => simp [Except.map]
    | cons e rest =>
      have hne : (e :: rest) ≠ ([] : List (List ℚ)) := by simp
      have hd : ∀ x ∈ (e :: rest), x.length = d := by rw [← hes]; exact hembs
      obtain ⟨v, hv, _, _⟩ := average_embeddings_ok (e :: rest) d hne hd
      simp [hv, Except.map]

lemma get_top3_fst_pairwise (sim : List ℚ → List ℚ → Option ℚ)
    (table : List StoredRecord) (q : List (Option ℚ)) :
    (get_top3_with_embeddings sim table q).1.Pairwise
      (fun a b => b.similarity_score ≤ a.similarity_score) := by
  simp only [get_top3_with_embeddings]
  exact results_pairwise (sqlTop3_sorted sim table (cleanEmbedding q))

lemma cases_len_sorted (rs : List SearchResult)
    (h : rs.Pairwise (fun a b => b.similarity_score ≤ a.similarity_score)) :
    (formatAsCases rs).length ≤ 3 ∧
    List.Chain' (fun a b : MetadataCase => b.similarity_score ≤ a.similarity_score)
      (formatAsCases rs) := by
  constructor
  · rw [formatAsCases_length]
    omega
  · have h2 : (rs.take 3).Pairwise
        (fun a b : SearchResult => b.similarity_score ≤ a.similarity_score) :=
      List.Pairwise.sublist (List.take_sublist _ _) h
    have h3 : List.Chain' (fun x y : ℚ => y ≤ x)
        ((rs.take 3).map (fun r => pyRoundTo r.similarity_score 4)) := by
      rw [List.chain'_map]
      exact h2.chain'.imp (fun a b hab => pyRoundTo_mono 4 hab)
    have h4 : List.Chain' (fun x y : ℚ => y ≤ x)
        ((formatAsCases rs).map (fun c => c.similarity_score)) := by
      rw [formatAsCases_map_score]
      exact h3
    rw [List.chain'_map] at h4
    exact h4

/-! ## Claim theorems -/

/-- C1: every query outcome contains at most 3 cases, and for every pair of
adjacent cases the similarity score at rank `i` is at least the score at
rank `i+1` (results ordered by descending similarity).  Stated for both
`query_with_embedding` and `query`. -/
theorem C1_top3_ordered_desc (sim : List ℚ → List ℚ → Option ℚ)
    (table : List StoredRecord) (q : List (Option ℚ)) (ts : String) (el : ℚ)
    (flag : Bool) :
    ((query_with_embedding sim table q ts el).cases.length ≤ 3 ∧
      List.Chain' (fun a b => b.similarity_score ≤ a.similarity_score)
        (query_with_embedding sim table q ts el).cases) ∧
    (∀ res, query sim table q flag ts el = Except.ok res →
      res.cases.length ≤ 3 ∧
      List.Chain' (fun a b => b.similarity_score ≤ a.similarity_score)
        res.cases) := by
  constructor
  · unfold query_with_embedding
    cases hem : (get_top3_with_embeddings sim table q).1.isEmpty with
    | true => simp [hem]
    | false =>
      simp only [hem, Bool.false_eq_true, if_false]
      exact cases_len_sorted _ (get_top3_fst_pairwise sim table q)
  · intro res hres
    cases hem : (get_top3_with_embeddings sim table q).1.isEmpty with
    | true =>
      simp only [query, hem, if_true] at hres
      have := Except.ok.inj hres
      rw [← this]
      simp
    | false =>
      simp only [query, hem, Bool.false_eq_true, if_false] at hres
      cases hfq : finishQuery (get_top3_with_embeddings sim table q).1
          (get_top3_with_embeddings sim table q).2 flag ts el with
      | error m => rw [hfq] at hres; simp [Except.map] at hres
      | ok p =>
        rw [hfq] at hres
        simp only [Except.map] at hres
        have hres' := Except.ok.inj hres
        have hshape := finishQuery_ok_shape hfq
        rw [← hres', hshape]
        exact cases_len_sorted _ (get_top3_fst_pairwise sim table q)

/-- C2: for every search-result sequence of size `n`, `_format_as_cases`
produces exactly `min n 3` cases, labeled "CASE A", "CASE B", "CASE C" in
strict rank order, preserving the rank order of the results and
truncating everything beyond the third. -/
theorem C2_case_labels (rs : List SearchResult) :
    (formatAsCases rs).length = min rs.length 3 ∧
    (formatAsCases rs).map (fun c => c.case_label) = CASE_LABELS.take rs.length ∧
    (formatAsCases rs).map (fun c => c.id) = (rs.take 3).map (fun r => r.id) :=
  ⟨formatAsCases_length rs, formatAsCases_map_label rs, formatAsCases_map_id rs⟩

/-- C3: querying against an empty store returns an outcome with an empty
case list and `results_found = 0`, and raises no exception (for `query`,
the result is an `Except.ok`). -/
theorem C3_empty_store (sim : List ℚ → List ℚ → Option ℚ)
    (q : List (Option ℚ)) (flag : Bool) (ts : String) (el : ℚ) :
    (query_with_embedding sim [] q ts el).cases = [] ∧
    (query_with_embedding sim [] q ts el).query_metadata.results_found = 0 ∧
    ∃ res, query sim [] q flag ts el = Except.ok res ∧
      res.cases = [] ∧ res.query_metadata.results_found = 0 :=
  ⟨rfl, rfl, ⟨[], ⟨ts, if flag then "snowflake_native" else "local", 0, el⟩⟩,
    rfl, rfl, rfl⟩

/-- C4: for every non-empty list of embeddings of equal dimension `d`,
`average_embeddings` succeeds with a vector of length `d` whose every
component is the arithmetic mean of the corresponding input components;
in particular `average_embeddings [[1,2],[3,4]] = [2, 3]`. -/
theorem C4_average_mean :
    (∀ (es : List (List ℚ)) (d : ℕ), es ≠ [] → (∀ e ∈ es, e.length = d) →
      ∃ v, average_embeddings es = Except.ok v ∧ v.length = d ∧
        ∀ j, j < d → v.getD j 0 =
          (es.map (fun e => e.getD j 0)).sum / (es.length : ℚ)) ∧
    average_embeddings [[1, 2], [3, 4]] = Except.ok [2, 3] := by
  refine ⟨average_embeddings_ok, ?_⟩
  norm_num [average_embeddings, List.zipWith]

/-- C4 witness: the universally quantified part applied to the concrete
input `[[1,2],[3,4]]` with dimension 2, discharging both hypotheses. -/
theorem C4_average_mean_witness :
    ([[(1 : ℚ), 2], [3, 4]] ≠ ([] : List (List ℚ))) ∧
    (∀ e ∈ [[(1 : ℚ), 2], [3, 4]], e.length = 2) ∧
    ∃ v, average_embeddings [[(1 : ℚ), 2], [3, 4]] = Except.ok v ∧
      v.length = 2 ∧ ∀ j, j < 2 → v.getD j 0 =
        (([[(1 : ℚ), 2], [3, 4]]).map (fun e => e.getD j 0)).sum /
          (([[(1 : ℚ), 2], [3, 4]]).length : ℚ) :=
  ⟨by simp, by simp,
    C4_average_mean.1 [[(1 : ℚ), 2], [3, 4]] 2 (by simp) (by simp)⟩

/-- C5: `average_embeddings` on the empty list fails with the
empty-input error, and on any non-empty input of uniform dimension it
does not fail. -/
theorem C5_empty_average_error :
    average_embeddings ([] : List (List ℚ)) =
      Except.error "Cannot average empty list of embeddings" ∧
    ∀ (es : List (List ℚ)) (d : ℕ), es ≠ [] → (∀ e ∈ es, e.length = d) →
      ∃ v, average_embeddings es = Except.ok v := by
  refine ⟨rfl, ?_⟩
  intro es d hne hd
  obtain ⟨v, hv, _, _⟩ := average_embeddings_ok es d hne hd
  exact ⟨v, hv⟩

/-- C5 witness: the non-empty part applied to the concrete input
`[[5]]`, discharging both hypotheses. -/
theorem C5_empty_average_error_witness :
    ([[(5 : ℚ)]] ≠ ([] : List (List ℚ))) ∧
    (∀ e ∈ [[(5 : ℚ)]], e.length = 1) ∧
    ∃ v, average_embeddings [[(5 : ℚ)]] = Except.ok v :=
  ⟨by simp, by simp, C5_empty_average_error.2 [[(5 : ℚ)]] 1 (by simp) (by simp)⟩

/-- C6: every record whose similarity is undefined (`none`) is omitted
from the returned results — every returned result carries a similarity
that the store actually computed for a stored record — and every record
with a defined similarity is eligible: the number of returned results is
exactly `min` of the number of defined-similarity candidate rows and 3. -/
theorem C6_null_similarity_skipped (sim : List ℚ → List ℚ → Option ℚ)
    (table : List StoredRecord) (q : List (Option ℚ)) :
    (∀ sr ∈ (get_top3_with_embeddings sim table q).1,
      ∃ r ∈ table, ∃ e, r.embedding = some e ∧ sr.id = r.id ∧
        sim e (cleanEmbedding q) = some sr.similarity_score) ∧
    (get_top3_with_embeddings sim table q).1.length =
      min ((recordRows sim table (cleanEmbedding q)).countP
            (fun row => row.similarity.isSome)) 3 := by
  constructor
  · intro sr hsr
    simp only [get_top3_with_embeddings] at hsr
    obtain ⟨row, hrow, hsome⟩ := List.mem_filterMap.mp hsr
    obtain ⟨r, hr, hemb, hid, hmeta, hsim⟩ := mem_sqlTop3 hrow
    unfold rowToResult at hsome
    obtain ⟨x, hx, hxa⟩ := Option.map_eq_some'.mp hsome
    refine ⟨r, hr, row.embedding, hemb, ?_, ?_⟩
    · rw [← hxa, ← hid]
    · rw [← hsim, hx, ← hxa]
  · exact get_top3_fst_length sim table q

/-- C6 witness: scenario 6 of the spec — a zero-norm record `Z` plus two
normal records; the zero-norm record is skipped, both normal records are
returned.  The first conjunct is applied to the first returned result,
with its membership hypothesis discharged concretely; the second is
instantiated and evaluated on the same store. -/
theorem C6_null_similarity_skipped_witness :
    (∃ r ∈ [⟨"Z", [], some [0, 0]⟩, ⟨"A", [], some [1, 0]⟩,
        (⟨"B", [], some [0, 1]⟩ : StoredRecord)], ∃ e,
      r.embedding = some e ∧
        (⟨"A", [], 1⟩ : SearchResult).id = r.id ∧
        simDot e (cleanEmbedding [some 1, some 0]) = some 1) ∧
    (get_top3_with_embeddings simDot
      [⟨"Z", [], some [0, 0]⟩, ⟨"A", [], some [1, 0]⟩,
       ⟨"B", [], some [0, 1]⟩] [some 1, some 0]).1.length = 2 := by
  constructor
  · exact (C6_null_similarity_skipped simDot
      [⟨"Z", [], some [0, 0]⟩, ⟨"A", [], some [1, 0]⟩, ⟨"B", [], some [0, 1]⟩]
      [some 1, some 0]).1 ⟨"A", [], 1⟩ (by
        norm_num [get_top3_with_embeddings, sqlTop3, recordRows, cleanEmbedding,
          List.insertionSort, List.orderedInsert, rowLE, descLE, rowToResult,
          List.filterMap_cons, List.filterMap_nil, simDot, dotQ])
  · norm_num [get_top3_with_embeddings, sqlTop3, recordRows, cleanEmbedding,
      List.insertionSort, List.orderedInsert, rowLE, descLE, rowToResult,
      List.filterMap_cons, List.filterMap_nil, simDot, dotQ]

lemma chunkGo_spec {α : Type} (bs : ℕ) (hbs : 0 < bs) :
    ∀ (fuel : ℕ) (l : List α), l.length ≤ fuel →
      (chunkGo bs fuel l).flatten = l ∧
      ∀ c ∈ chunkGo bs fuel l, c.length ≤ bs ∧ c ≠ [] := by
  intro fuel
  induction fuel with
  | zero =>
    intro l hl
    obtain rfl : l = [] := List.length_eq_zero.mp (by omega)
    exact ⟨rfl, by simp [chunkGo]⟩
  | succ n ih =>
    intro l hl
    cases l with
    | nil => exact ⟨rfl, by simp [chunkGo]⟩
    | cons x xs =>
      have hdrop : ((x :: xs).drop bs).length ≤ n := by
        rw [List.length_drop]
        simp only [List.length_cons] at hl ⊢
        omega
      obtain ⟨ihj, ihc⟩ := ih ((x :: xs).drop bs) hdrop
      constructor
      · simp only [chunkGo, List.flatten]
        rw [ihj, List.take_append_drop]
      · intro c hc
        simp only [chunkGo, List.mem_cons] at hc
        rcases hc with rfl | hc
        · constructor
          · rw [List.length_take]
            omega
          · have : ((x :: xs).take bs).length ≠ 0 := by
              rw [List.length_take]
              simp only [List.length_cons]
              omega
            intro hnil
            rw [hnil] at this
            exact this rfl
        · exact ihc c hc

lemma foldl_countP {α : Type} (p : α → Bool) :
    ∀ (cs : List (List α)) (n : ℕ),
      cs.foldl (fun acc c => acc + c.countP p) n = n + (cs.flatten).countP p := by
  intro cs
  induction cs with
  | nil => intro n; simp
  | cons c cs ih =>
    intro n
    simp only [List.foldl_cons, List.flatten_cons, List.countP_append]
    rw [ih]
    omega

/-- C7: `insert_batch` processes the records in chunks of `batch_size`
(the chunks concatenate back to the record list and each is non-empty
with at most `batch_size` records), a per-record failure neither aborts
processing nor raises, and the returned value is exactly the number of
records that inserted successfully. -/
theorem C7_insert_batch_failure_isolation (ok : InsertRecord → Bool)
    (records : List InsertRecord) (bs : ℕ) (hbs : 0 < bs) :
    insert_batch ok records bs = Except.ok (records.countP ok) ∧
    (chunkList records bs).flatten = records ∧
    ∀ c ∈ chunkList records bs, c.length ≤ bs ∧ c ≠ [] := by
  obtain ⟨hj, hc⟩ := chunkGo_spec bs hbs records.length records (le_refl _)
  refine ⟨?_, hj, hc⟩
  unfold insert_batch
  rw [if_neg (by omega)]
  rw [foldl_countP]
  rw [show (chunkList records bs).flatten = records from hj]
  simp

/-- C7 witness: five records, one of which the database rejects, in
chunks of 2: the batch neither aborts nor raises and reports 4
successful inserts. -/
theorem C7_insert_batch_failure_isolation_witness :
    0 < 2 ∧
    insert_batch (fun r => r.id != "bad")
      [⟨"r1", "p1", [], [1]⟩, ⟨"r2", "p2", [], [2]⟩, ⟨"bad", "p3", [], [3]⟩,
       ⟨"r4", "p4", [], [4]⟩, ⟨"r5", "p5", [], [5]⟩] 2 = Except.ok 4 :=
  ⟨by omega,
    ((C7_insert_batch_failure_isolation (fun r => r.id != "bad")
      [⟨"r1", "p1", [], [1]⟩, ⟨"r2", "p2", [], [2]⟩, ⟨"bad", "p3", [], [3]⟩,
       ⟨"r4", "p4", [], [4]⟩, ⟨"r5", "p5", [], [5]⟩] 2 (by omega)).1).trans
      (congrArg Except.ok (by decide))⟩

lemma mem_formatAsCases_score {c : MetadataCase} {rs : List SearchResult}
    (hc : c ∈ formatAsCases rs) : ∃ s, c.similarity_score = pyRoundTo s 4 := by
  have h1 : c.similarity_score ∈
      (formatAsCases rs).map (fun c => c.similarity_score) :=
    List.mem_map_of_mem _ hc
  rw [formatAsCases_map_score] at h1
  obtain ⟨r, _, hr⟩ := List.mem_map.mp h1
  exact ⟨r.similarity_score, hr.symm⟩

/-- C8: every missing/null component of a query embedding is replaced by
`0.0` before the search — querying with nulls is identical to querying
with those components set to zero, the cleaned vector has `0` where the
input had `null` — and such a query is never rejected: `query` still
returns a normal result. -/
theorem C8_null_components_cleaned (sim : List ℚ → List ℚ → Option ℚ)
    (table : List StoredRecord) (q : List (Option ℚ)) :
    get_top3_with_embeddings sim table q =
      get_top3_with_embeddings sim table (q.map (fun c => some (c.getD 0))) ∧
    (∀ (i : ℕ), q[i]? = some none → (cleanEmbedding q)[i]? = some 0) ∧
    ∀ (d : ℕ) (flag : Bool) (ts : String) (el : ℚ),
      (∀ r ∈ table, ∀ e ∈ r.embedding, e.length = d) →
      ∃ res, query sim table q flag ts el = Except.ok res := by
  refine ⟨?_, ?_, ?_⟩
  · have hclean : cleanEmbedding (q.map (fun c => some (c.getD 0))) =
        cleanEmbedding q := by
      simp [cleanEmbedding, List.map_map, Function.comp]
    simp only [get_top3_with_embeddings, sqlTop3, hclean]
  · intro i hi
    simp [cleanEmbedding, hi]
  · intro d flag ts el hdim
    exact query_ok sim table q flag ts el d hdim

/-- C8 witness: a query embedding whose first component is null, against
a store with one 2-dimensional record; the null component is cleaned to
`0` and the query succeeds. -/
theorem C8_null_components_cleaned_witness :
    (([none, some 1] : List (Option ℚ))[0]? = some none) ∧
    (cleanEmbedding [none, some 1])[0]? = some 0 ∧
    (∀ r ∈ [(⟨"A", [], some [1, 0]⟩ : StoredRecord)],
      ∀ e ∈ r.embedding, e.length = 2) ∧
    ∃ res, query simDot [⟨"A", [], some [1, 0]⟩] [none, some 1]
      false "t" 1 = Except.ok res := by
  have hdim : ∀ r ∈ [(⟨"A", [], some [1, 0]⟩ : StoredRecord)],
      ∀ e ∈ r.embedding, e.length = 2 := by
    rintro r hr e he
    simp only [List.mem_singleton] at hr
    subst hr
    simp only [Option.mem_def, Option.some.injEq] at he
    subst he
    rfl
  exact ⟨rfl,
    (C8_null_components_cleaned simDot [⟨"A", [], some [1, 0]⟩]
      [none, some 1]).2.1 0 rfl,
    hdim,
    (C8_null_components_cleaned simDot [⟨"A", [], some [1, 0]⟩]
      [none, some 1]).2.2 2 false "t" 1 hdim⟩

/-- C9 counterexample: a query that finds zero results stores the raw
elapsed milliseconds, not the value rounded to 2 decimal places — with
an elapsed time of `0.001` ms the stored value differs from the rounded
one. -/
theorem C9_counterexample :
    (query_with_embedding simDot [] [] "2026-01-01T00:00:00"
      (1/1000)).query_metadata.processing_time_ms ≠ pyRoundTo (1/1000) 2 := by
  have h : (query_with_embedding simDot [] [] "2026-01-01T00:00:00"
      (1/1000)).query_metadata.processing_time_ms = 1/1000 := rfl
  rw [h]
  norm_num [pyRoundTo, pyRound]

/-- C9 (amended): for every query that finds at least one result the
reported processing time is rounded to 2 decimal places, while a query
that finds zero results reports the raw unrounded elapsed time; each
returned case's similarity score is always rounded to 4 decimal places. -/
theorem C9_rounding_amended (sim : List ℚ → List ℚ → Option ℚ)
    (table : List StoredRecord) (q : List (Option ℚ)) (ts : String) (el : ℚ)
    (flag : Bool) :
    ((query_with_embedding sim table q ts el).cases = [] →
      (query_with_embedding sim table q ts el).query_metadata.processing_time_ms
        = el) ∧
    ((query_with_embedding sim table q ts el).cases ≠ [] →
      (query_with_embedding sim table q ts el).query_metadata.processing_time_ms
        = pyRoundTo el 2) ∧
    (∀ c ∈ (query_with_embedding sim table q ts el).cases,
      ∃ s, c.similarity_score = pyRoundTo s 4) ∧
    ∀ res, query sim table q flag ts el = Except.ok res →
      ((res.cases = [] → res.query_metadata.processing_time_ms = el) ∧
       (res.cases ≠ [] → res.query_metadata.processing_time_ms = pyRoundTo el 2) ∧
       ∀ c ∈ res.cases, ∃ s, c.similarity_score = pyRoundTo s 4) := by
  have hmain : ∀ (srs : List SearchResult),
      ¬srs.isEmpty = true →
      (formatAsCases srs ≠ []) := by
    intro srs hsrs
    apply formatAsCases_ne_nil
    intro h
    rw [h] at hsrs
    exact hsrs rfl
  refine ⟨?_, ?_, ?_, ?_⟩
  · cases hem : (get_top3_with_embeddings sim table q).1.isEmpty with
    | true => intro _; simp [query_with_embedding, hem]
    | false =>
      intro hcases
      exfalso
      simp only [query_with_embedding, hem, Bool.false_eq_true, if_false]
        at hcases
      exact hmain _ (by rw [hem]; simp) hcases
  · cases hem : (get_top3_with_embeddings sim table q).1.isEmpty with
    | true =>
      intro hcases
      exfalso
      simp only [query_with_embedding, hem, if_true] at hcases
      exact hcases rfl
    | false =>
      intro _
      simp [query_with_embedding, hem]
  · intro c hc
    cases hem : (get_top3_with_embeddings sim table q).1.isEmpty with
    | true => simp [query_with_embedding, hem] at hc
    | false =>
      simp only [query_with_embedding, hem, Bool.false_eq_true, if_false] at hc
      exact mem_formatAsCases_score hc
  · intro res hres
    cases hem : (get_top3_with_embeddings sim table q).1.isEmpty with
    | true =>
      simp only [query, hem, if_true] at hres
      have := Except.ok.inj hres
      rw [← this]
      refine ⟨fun _ => rfl, fun h => absurd rfl h, by simp⟩
    | false =>
      simp only [query, hem, Bool.false_eq_true, if_false] at hres
      cases hfq : finishQuery (get_top3_with_embeddings sim table q).1
          (get_top3_with_embeddings sim table q).2 flag ts el with
      | error m => rw [hfq] at hres; simp [Except.map] at hres
      | ok p =>
        rw [hfq] at hres
        simp only [Except.map] at hres
        have hres' := Except.ok.inj hres
        have hshape := finishQuery_ok_shape hfq
        rw [← hres', hshape]
        refine ⟨?_, fun _ => rfl, ?_⟩
        · intro hcases
          exact absurd hcases (hmain _ (by rw [hem]; simp))
        · intro c hc
          exact mem_formatAsCases_score hc

/-- C1 witness: a two-record store queried with `[1, 0]`; `query`
succeeds and its hypothesis is discharged with the concrete outcome,
whose two cases are in descending score order. -/
theorem C1_top3_ordered_desc_witness :
    ∃ res, query simDot [⟨"A", [], some [1, 0]⟩, ⟨"B", [], some [0, 1]⟩]
        [some 1, some 0] false "t" 1 = Except.ok res ∧
      res.cases.length ≤ 3 ∧
      List.Chain' (fun a b => b.similarity_score ≤ a.similarity_score)
        res.cases := by
  have hq : query simDot [⟨"A", [], some [1, 0]⟩, ⟨"B", [], some [0, 1]⟩]
      [some 1, some 0] false "t" 1 =
      Except.ok ⟨[⟨"CASE A", "A", [], 1⟩, ⟨"CASE B", "B", [], 0⟩],
        ⟨"t", "local", 2, 1⟩⟩ := by
    norm_num [query, finishQuery, get_top3_with_embeddings, sqlTop3,
      recordRows, cleanEmbedding, List.insertionSort, List.orderedInsert,
      rowLE, descLE, rowToResult, List.filterMap_cons, List.filterMap_nil,
      simDot, dotQ, average_embeddings, formatAsCases, CASE_LABELS,
      pyRoundTo, pyRound, Except.map, List.zipWith]
  exact ⟨_, hq,
    (C1_top3_ordered_desc simDot
      [⟨"A", [], some [1, 0]⟩, ⟨"B", [], some [0, 1]⟩]
      [some 1, some 0] "t" 1 false).2 _ hq⟩

/-- C9 witness: the amended claim applied at two concrete inputs — an
empty store (zero results: the raw elapsed value `0.001` is reported
unchanged) and a one-record store (one result: the elapsed value is
rounded to 2 decimal places). -/
theorem C9_rounding_amended_witness :
    ((query_with_embedding simDot [] [] "t" (1/1000)).cases = [] ∧
     (query_with_embedding simDot [] [] "t"
        (1/1000)).query_metadata.processing_time_ms = 1/1000) ∧
    ((query_with_embedding simDot [⟨"A", [], some [1, 0]⟩]
        [some 1, some 0] "t" 1).cases ≠ [] ∧
     (query_with_embedding simDot [⟨"A", [], some [1, 0]⟩]
        [some 1, some 0] "t" 1).query_metadata.processing_time_ms =
        pyRoundTo 1 2) := by
  have hnil : (query_with_embedding simDot [] [] "t" (1/1000)).cases = [] := rfl
  have hne : (query_with_embedding simDot [⟨"A", [], some [1, 0]⟩]
      [some 1, some 0] "t" 1).cases ≠ [] := by
    norm_num [query_with_embedding, get_top3_with_embeddings, sqlTop3,
      recordRows, cleanEmbedding, List.insertionSort, List.orderedInsert,
      rowLE, descLE, rowToResult, List.filterMap_cons, List.filterMap_nil,
      simDot, dotQ, formatAsCases, CASE_LABELS]
  exact ⟨⟨hnil, (C9_rounding_amended simDot [] [] "t" (1/1000) false).1 hnil⟩,
    ⟨hne, (C9_rounding_amended simDot [⟨"A", [], some [1, 0]⟩]
      [some 1, some 0] "t" 1 false).2.1 hne⟩⟩

/-- C10: the averaging step of `query` is guarded — with a non-empty
search-result list but an empty list of stored embeddings,
`average_embeddings` is never consulted and the query finishes normally
with its cases and no target embedding — and consequently the
empty-input averaging error is unreachable from `query`. -/
theorem C10_average_guard :
    (∀ (srs : List SearchResult) (embs : List (List ℚ)) (flag : Bool)
        (ts : String) (el : ℚ), srs ≠ [] → embs = [] →
      finishQuery srs embs flag ts el =
        Except.ok (none, ⟨formatAsCases srs,
          ⟨ts, if flag then "snowflake_native" else "local",
           (formatAsCases srs).length, pyRoundTo el 2⟩⟩)) ∧
    ∀ (sim : List ℚ → List ℚ → Option ℚ) (table : List StoredRecord)
      (q : List (Option ℚ)) (flag : Bool) (ts : String) (el : ℚ),
      query sim table q flag ts el ≠
        Except.error "Cannot average empty list of embeddings" := by
  constructor
  · intro srs embs flag ts el _ hembs
    subst hembs
    rfl
  · intro sim table q flag ts el
    cases hem : (get_top3_with_embeddings sim table q).1.isEmpty with
    | true => simp [query, hem]
    | false =>
      simp only [query, hem, Bool.false_eq_true, if_false]
      unfold finishQuery
      cases hes : (get_top3_with_embeddings sim table q).2 with
      | nil => simp [Except.map]
      | cons e rest =>
        simp only [List.isEmpty_cons, Bool.false_eq_true, if_false]
        unfold average_embeddings
        cases hg : rest.all (fun x => x.length == e.length) with
        | true =>
          simp only [hg, if_true, Except.map]
          intro h
          exact Except.noConfusion h
        | false =>
          simp only [hg, Bool.false_eq_true, if_false, Except.map]
          intro h
          have := Except.error.inj h
          exact absurd this (by decide)

/-- C10 witness: the guard applied to a concrete non-empty result list
with an empty embedding list: the outcome is `ok` with no target
embedding and the formatted cases. -/
theorem C10_average_guard_witness :
    ([(⟨"A", [], 1⟩ : SearchResult)] ≠ []) ∧
    finishQuery [⟨"A", [], 1⟩] [] false "t" 1 =
      Except.ok (none, ⟨formatAsCases [⟨"A", [], 1⟩],
        ⟨"t", "local", (formatAsCases [⟨"A", [], 1⟩]).length,
         pyRoundTo 1 2⟩⟩) :=
  ⟨by simp,
    C10_average_guard.1 [⟨"A", [], 1⟩] [] false "t" 1 (by simp) rfl⟩

end RAGSpec
